import Mathlib

/-!
Wallet Tracker server — shallow embedding

A Lean model of the core logic of `server.js` (single-file Express server;
the second source file is the same program with translated comments).
Modelled here, faithfully to the JavaScript source:

* the anti-spam filter pipeline `passTokenFilters` / `passNativeFilters`;
* the token-metadata lookup `getErc20Meta` with its cache and per-field
  fallback values;
* the block-range chunking used by the ERC-20 transfer and approval scans;
* the accumulation loops of the three route handlers
  (`/native`, `/erc20`, `/approvals`), including their `break`-on-limit
  behaviour, and the final descending sort.

External facts (the `ethers` library, the JSON-RPC network) are abstracted
as parameters: `isAddress` for `ethers.isAddress`, a `Provider` structure
for the RPC handle (latest block number, `getLogs`, block fetch), and an
`Erc20Source` of optional fetch results for the three metadata calls, where
`none` models a call that throws (caught by `.catch` in the source).
JavaScript `BigInt` amounts are modelled as `Int`; block numbers, log
indices and timestamps as `Nat`.
-/

namespace WalletTracker

/-- JavaScript `String.prototype.toLowerCase()`, modelled character-wise
(all strings involved are ASCII hex addresses and chain keys). -/
def lowerStr (s : String) : String :=
  String.mk (s.data.map Char.toLower)

/-- Process-wide filter configuration, read from the environment at startup
(`CONFIG` in the source). -/
structure Config where
  skipZeroValue : Bool
  minNativeWei : Int
  minErc20Raw : Int
  allowAllTokens : Bool
deriving DecidableEq

/-- Per-chain token whitelist/blacklist sets (`TOKEN_WHITELIST`,
`TOKEN_BLACKLIST`). A chain key absent from the JavaScript object maps to
`none`; a present `Set` is modelled by the list of its elements. -/
structure FilterEnv where
  blacklist : String → Option (List String)
  whitelist : String → Option (List String)

/-- `passTokenFilters(chain, token, rawValue)` from the source:
blacklist, then zero-value skip, then minimum raw threshold, then
allow-all, then whitelist membership, else default-allow. -/
def passTokenFilters (cfg : Config) (env : FilterEnv) (chain token : String)
    (rawValue : Int) : Bool :=
  -- `if (TOKEN_BLACKLIST[chain]?.has(token.toLowerCase())) return false;`
  if (env.blacklist chain).elim false (fun bl => bl.contains (lowerStr token)) then false
  -- `if (CONFIG.SKIP_ZERO_VALUE && rawValue === 0n) return false;`
  else if cfg.skipZeroValue && rawValue == 0 then false
  -- `if (rawValue < CONFIG.MIN_ERC20_RAW) return false;`
  else if rawValue < cfg.minErc20Raw then false
  -- `if (CONFIG.ALLOW_ALL_TOKENS) return true;`
  else if cfg.allowAllTokens then true
  else
    -- `const wl = TOKEN_WHITELIST[chain]; if (wl && wl.size > 0) return wl.has(...);`
    match env.whitelist chain with
    | some wl => if wl.length > 0 then wl.contains (lowerStr token) else true
    | none => true

/-- `passNativeFilters(valueWei)` from the source. -/
def passNativeFilters (cfg : Config) (valueWei : Int) : Bool :=
  if cfg.skipZeroValue && valueWei == 0 then false
  else if valueWei < cfg.minNativeWei then false
  else true

/-- The chunked-scan range builder shared by the `/erc20` and `/approvals`
handlers:
`for (let start = fromBlock; start <= toBlock; start += 10000)
   ranges.push({ fromBlock: start, toBlock: Math.min(start + 9999, toBlock) });`
-/
def chunkRanges (fromBlock toBlock : Nat) : List (Nat × Nat) :=
  if h : fromBlock ≤ toBlock then
    (fromBlock, min (fromBlock + 9999) toBlock) :: chunkRanges (fromBlock + 10000) toBlock
  else []
termination_by toBlock + 1 - fromBlock
decreasing_by omega

/-- One event log as returned by `provider.getLogs`. `topic1`/`topic2` are
the second and third entries of `log.topics` (66-character hex strings);
`data` is the big-endian unsigned integer denoted by `log.data`
(the `BigInt(log.data || "0x0")` decoding of the source). -/
structure LogEntry where
  txHash : String
  blockNumber : Nat
  logIndex : Nat
  topic1 : String
  topic2 : String
  data : Int
deriving DecidableEq

/-- Output record of the `/erc20` route (one array element of `items`). -/
structure TransferItem where
  chain : String
  txHash : String
  blockNumber : Nat
  logIndex : Nat
  contract : String
  tokenSymbol : String
  tokenName : String
  tokenDecimals : Nat
  fromAddr : String
  toAddr : String
  valueRaw : Int
  isSender : Bool
  isReceiver : Bool
deriving DecidableEq

/-- Output record of the `/approvals` route. -/
structure ApprovalItem where
  chain : String
  txHash : String
  blockNumber : Nat
  logIndex : Nat
  contract : String
  tokenSymbol : String
  tokenName : String
  tokenDecimals : Nat
  owner : String
  spender : String
  valueRaw : Int
deriving DecidableEq

/-- One transaction of a fetched block (`getBlockWithTransactions`).
A `null` `tx.from`/`tx.to` is modelled by `""`, matching the source's
`(tx.from || "")` / `(tx.to || "")` handling. -/
structure NativeTx where
  hash : String
  fromAddr : String
  toAddr : String
  value : Int
  blockNumber : Nat
deriving DecidableEq

/-- A fetched block with its transactions. -/
structure NativeBlock where
  timestamp : Nat
  transactions : List NativeTx
deriving DecidableEq

/-- Output record of the `/native` route. -/
structure NativeItem where
  chain : String
  hash : String
  blockNumber : Nat
  timestamp : Nat
  fromAddr : String
  toAddr : String
  valueWei : Int
  isSender : Bool
  isReceiver : Bool
deriving DecidableEq

/-- The topic filters the server builds for its three kinds of log query. -/
inductive TopicQuery where
  | transferFrom (addrTopic : String)
  | transferTo (addrTopic : String)
  | approvalOwner (addrTopic : String)
deriving DecidableEq

/-- An `ethers` JSON-RPC provider handle, abstracted: the latest block
number, the log query, and the block fetch (`null` = `none`). -/
structure Provider where
  latest : Nat
  getLogs : String → TopicQuery → Nat → Nat → List LogEntry
  getBlock : Nat → Option NativeBlock

/-- `getProvider(chain)`: look up `PROVIDERS[String(chain).toLowerCase()]`,
throwing a 400 error when the chain has no active provider. -/
def getProvider (providers : String → Option Provider) (chain : String) :
    Except String Provider :=
  match providers (lowerStr chain) with
  | some p => .ok p
  | none => .error ("Unsupported or unavailable chain " ++ chain)

/-- JavaScript `s.slice(n)` on strings: drop the first `n` characters. -/
def charDrop (s : String) (n : Nat) : String :=
  String.mk (s.data.drop n)

/-- `a.toLowerCase().replace(/^0x/, "")` (the lowercasing happens at the
call site): remove a leading `"0x"` when present. -/
def stripHexMarker (s : String) : String :=
  if s.data.take 2 = ['0', 'x'] then charDrop s 2 else s

/-- `.padStart(64, "0")`. -/
def padStart64 (s : String) : String :=
  String.mk (List.replicate (64 - s.length) '0') ++ s

/-- The `addrTopic` helper of both log-scan handlers. -/
def addrTopic (a : String) : String :=
  "0x" ++ padStart64 (stripHexMarker (lowerStr a))

/-! ## Token metadata lookup (`getErc20Meta`) -/

/-- The assembled metadata value (`{symbol, name, decimals}`). -/
structure Erc20Meta where
  symbol : String
  name : String
  decimals : Nat
deriving DecidableEq

/-- Results of the three upstream metadata calls for a token; `none`
models a call that throws and lands in the corresponding `.catch`. -/
structure Erc20Source where
  symbolResult : Option String
  nameResult : Option String
  decimalsResult : Option Nat
deriving DecidableEq

/-- A cached metadata entry (`{...meta, ts}`). -/
structure CacheEntry where
  meta : Erc20Meta
  ts : Nat
deriving DecidableEq

/-- The `erc20MetaCache` map, as an association list whose first binding
for a key wins (`Map.set` overwriting is modelled by prepending). -/
abbrev MetaCache := List (String × CacheEntry)

/-- Cache key `` `${chain}:${token.toLowerCase()}` ``. -/
def cacheKey (chain token : String) : String :=
  chain ++ ":" ++ lowerStr token

/-- `cacheGetErc20Meta`. -/
def cacheGetErc20Meta (cache : MetaCache) (chain token : String) :
    Option CacheEntry :=
  (cache.find? (fun e => e.1 == cacheKey chain token)).map Prod.snd

/-- `cacheSetErc20Meta`. -/
def cacheSetErc20Meta (cache : MetaCache) (chain token : String)
    (meta : Erc20Meta) (now : Nat) : MetaCache :=
  (cacheKey chain token, { meta := meta, ts := now }) :: cache

/-- The 6-hour cache freshness window, in milliseconds. -/
def sixHoursMs : Nat := 6 * 60 * 60 * 1000

/-- The fetch-and-assemble path of `getErc20Meta` (taken on a cache miss or
a stale entry): get the provider (may throw "unavailable chain"), issue the
three metadata calls with per-field fallbacks
(`.catch(() => "UNK")`, `.catch(() => "Unknown Token")`, `.catch(() => 18)`),
assemble `{symbol, name, decimals: Number(decimals) || 18}` and cache it. -/
def getErc20MetaFetch (providers : String → Option Provider)
    (fetch : String → String → Erc20Source) (cache : MetaCache) (now : Nat)
    (chain token : String) : Except String (Erc20Meta × MetaCache) :=
  match getProvider providers chain with
  | .error e => .error e
  | .ok _p =>
    let src := fetch chain token
    let symbol := src.symbolResult.getD "UNK"
    let name := src.nameResult.getD "Unknown Token"
    let fetchedDecimals := src.decimalsResult.getD 18
    -- `decimals: Number(decimals) || 18` — a falsy (zero) value becomes 18.
    let decimals := if fetchedDecimals == 0 then 18 else fetchedDecimals
    let meta : Erc20Meta := { symbol := symbol, name := name, decimals := decimals }
    .ok (meta, cacheSetErc20Meta cache chain token meta now)

/-- `getErc20Meta(chain, token)`: return a fresh cache hit, else fetch. -/
def getErc20Meta (providers : String → Option Provider)
    (fetch : String → String → Erc20Source) (cache : MetaCache) (now : Nat)
    (chain token : String) : Except String (Erc20Meta × MetaCache) :=
  match cacheGetErc20Meta cache chain token with
  | some hit =>
    if now - hit.ts < sixHoursMs then .ok (hit.meta, cache)
    else getErc20MetaFetch providers fetch cache now chain token
  | none => getErc20MetaFetch providers fetch cache now chain token

/-! ## Scan loops

The three handlers share a loop shape: an inner loop pushing decoded
records into `items` with `if (items.length >= limit) break;` after each
push, and an outer loop over sub-ranges (or blocks) with the same check
after each batch. The inner and outer loops are translated one-to-one. -/

/-- The per-log loop body of the `/erc20` handler over one sub-range's
batch `[...logsFrom, ...logsTo]`: skip logs failing `passTokenFilters`,
push the decoded record, and break out as soon as `limit` is reached. -/
def erc20AppendLogs (cfg : Config) (env : FilterEnv) (chain token : String)
    (decode : LogEntry → TransferItem) (limit : Nat)
    (acc : List TransferItem) : List LogEntry → List TransferItem
  | [] => acc
  | log :: rest =>
    if passTokenFilters cfg env chain token log.data then
      let acc2 := acc ++ [decode log]
      if limit ≤ acc2.length then acc2
      else erc20AppendLogs cfg env chain token decode limit acc2 rest
    else erc20AppendLogs cfg env chain token decode limit acc rest

/-- The outer sub-range loop of the `/erc20` handler; `logsOf a b` is the
concatenation `[...logsFrom, ...logsTo]` of the two log queries on the
sub-range `[a, b]`. -/
def erc20ScanRanges (cfg : Config) (env : FilterEnv) (chain token : String)
    (decode : LogEntry → TransferItem) (limit : Nat)
    (logsOf : Nat → Nat → List LogEntry)
    (acc : List TransferItem) : List (Nat × Nat) → List TransferItem
  | [] => acc
  | r :: rest =>
    let acc2 := erc20AppendLogs cfg env chain token decode limit acc (logsOf r.1 r.2)
    if limit ≤ acc2.length then acc2
    else erc20ScanRanges cfg env chain token decode limit logsOf acc2 rest

/-- The per-log loop body of the `/approvals` handler over one sub-range's
batch: push every decoded record (no filter call appears in this loop in
the source), breaking out as soon as `limit` is reached. -/
def approvalsAppendLogs (decode : LogEntry → ApprovalItem) (limit : Nat)
    (acc : List ApprovalItem) : List LogEntry → List ApprovalItem
  | [] => acc
  | log :: rest =>
    let acc2 := acc ++ [decode log]
    if limit ≤ acc2.length then acc2
    else approvalsAppendLogs decode limit acc2 rest

/-- The outer sub-range loop of the `/approvals` handler. -/
def approvalsScanRanges (decode : LogEntry → ApprovalItem) (limit : Nat)
    (logsOf : Nat → Nat → List LogEntry)
    (acc : List ApprovalItem) : List (Nat × Nat) → List ApprovalItem
  | [] => acc
  | r :: rest =>
    let acc2 := approvalsAppendLogs decode limit acc (logsOf r.1 r.2)
    if limit ≤ acc2.length then acc2
    else approvalsScanRanges decode limit logsOf acc2 rest

/-- Decoding one Transfer log into an output record, as in the `/erc20`
handler: addresses are recovered from the topics by `.slice(26)`. -/
def decodeTransfer (chain token symbol name : String) (decimals : Nat)
    (address : String) (log : LogEntry) : TransferItem :=
  let fromAddr := "0x" ++ charDrop log.topic1 26
  let toAddr := "0x" ++ charDrop log.topic2 26
  { chain := lowerStr chain, txHash := log.txHash,
    blockNumber := log.blockNumber, logIndex := log.logIndex,
    contract := token, tokenSymbol := symbol, tokenName := name,
    tokenDecimals := decimals, fromAddr := fromAddr, toAddr := toAddr,
    valueRaw := log.data,
    isSender := lowerStr fromAddr == lowerStr address,
    isReceiver := lowerStr toAddr == lowerStr address }

/-- Decoding one Approval log, as in the `/approvals` handler: the owner is
the queried address, the spender comes from `topics[2].slice(26)`. -/
def decodeApproval (chain token symbol name : String) (decimals : Nat)
    (address : String) (log : LogEntry) : ApprovalItem :=
  { chain := lowerStr chain, txHash := log.txHash,
    blockNumber := log.blockNumber, logIndex := log.logIndex,
    contract := token, tokenSymbol := symbol, tokenName := name,
    tokenDecimals := decimals, owner := address,
    spender := "0x" ++ charDrop log.topic2 26, valueRaw := log.data }

/-- The comparator of both log-scan handlers,
`(a, b) => (b.blockNumber - a.blockNumber) || (b.logIndex - a.logIndex)`,
as the Boolean "a sorts no later than b" relation it induces: descending
block number, then descending log index. -/
def transferLE (x y : TransferItem) : Bool :=
  decide (y.blockNumber < x.blockNumber ∨
    (y.blockNumber = x.blockNumber ∧ y.logIndex ≤ x.logIndex))

/-- The same comparator on approval records. -/
def approvalLE (x y : ApprovalItem) : Bool :=
  decide (y.blockNumber < x.blockNumber ∨
    (y.blockNumber = x.blockNumber ∧ y.logIndex ≤ x.logIndex))

/-! ## Route handlers -/

/-- Response body of the `/erc20` route (the fields the model tracks). -/
structure Erc20Result where
  chain : String
  scannedFrom : Nat
  scannedTo : Nat
  count : Nat
  items : List TransferItem
deriving DecidableEq

/-- Response body of the `/approvals` route. -/
structure ApprovalsResult where
  chain : String
  scannedFrom : Nat
  scannedTo : Nat
  count : Nat
  items : List ApprovalItem
deriving DecidableEq

/-- Response body of the `/native` route. -/
structure NativeResult where
  chain : String
  scannedFrom : Nat
  scannedTo : Nat
  scannedBlocks : Nat
  count : Nat
  items : List NativeItem
deriving DecidableEq

/-- The `GET /address/:chain/:address/erc20` handler. `isAddress` stands
for `ethers.isAddress`; `fromBlockQ`, `toBlockQ`, `limitQ` are the parsed
optional query parameters. Steps, in source order: address validation,
provider lookup, token validation, metadata lookup, block-range defaults,
the `fromBlock <= toBlock` validation, limit clamping, chunked scan with
the token filter, and the final descending sort. -/
def erc20Route (cfg : Config) (env : FilterEnv)
    (providers : String → Option Provider)
    (fetch : String → String → Erc20Source) (isAddress : String → Bool)
    (cache : MetaCache) (now : Nat) (chain address token : String)
    (fromBlockQ toBlockQ limitQ : Option Nat) : Except String Erc20Result :=
  if !isAddress address then .error ("Invalid address: " ++ address)
  else match getProvider providers chain with
  | .error e => .error e
  | .ok p =>
    if !isAddress token then
      .error "Query param token is required and must be a valid ERC-20 contract address."
    else match getErc20Meta providers fetch cache now chain token with
    | .error e => .error e
    | .ok (meta, _cache2) =>
      let latest := p.latest
      -- `fromBlock = query.fromBlock ? Number(..) : Math.max(0, latest - 200000)`
      let fromBlock := fromBlockQ.getD (latest - 200000)
      let toBlock := toBlockQ.getD latest
      if fromBlock > toBlock then .error "fromBlock must be <= toBlock"
      else
        let limit := min (limitQ.getD 500) 2000
        let logsOf := fun (a b : Nat) =>
          p.getLogs token (.transferFrom (addrTopic address)) a b ++
          p.getLogs token (.transferTo (addrTopic address)) a b
        let decode := decodeTransfer chain token meta.symbol meta.name meta.decimals address
        let items := erc20ScanRanges cfg env chain token decode limit logsOf []
          (chunkRanges fromBlock toBlock)
        let sorted := items.mergeSort transferLE
        .ok { chain := lowerStr chain, scannedFrom := fromBlock,
              scannedTo := toBlock, count := sorted.length, items := sorted }

/-- The `GET /address/:chain/:address/approvals` handler. Same shape as
`erc20Route` except: a single owner-topic log query per sub-range, no
`fromBlock <= toBlock` validation, and no filter call in the log loop. -/
def approvalsRoute (_cfg : Config) (_env : FilterEnv)
    (providers : String → Option Provider)
    (fetch : String → String → Erc20Source) (isAddress : String → Bool)
    (cache : MetaCache) (now : Nat) (chain address token : String)
    (fromBlockQ toBlockQ limitQ : Option Nat) : Except String ApprovalsResult :=
  if !isAddress address then .error ("Invalid address: " ++ address)
  else match getProvider providers chain with
  | .error e => .error e
  | .ok p =>
    if !isAddress token then
      .error "Query param token is required and must be a valid ERC-20 contract address."
    else match getErc20Meta providers fetch cache now chain token with
    | .error e => .error e
    | .ok (meta, _cache2) =>
      let latest := p.latest
      let fromBlock := fromBlockQ.getD (latest - 200000)
      let toBlock := toBlockQ.getD latest
      let limit := min (limitQ.getD 500) 2000
      let logsOf := fun (a b : Nat) =>
        p.getLogs token (.approvalOwner (addrTopic address)) a b
      let decode := decodeApproval chain token meta.symbol meta.name meta.decimals address
      let items := approvalsScanRanges decode limit logsOf []
        (chunkRanges fromBlock toBlock)
      let sorted := items.mergeSort approvalLE
      .ok { chain := lowerStr chain, scannedFrom := fromBlock,
            scannedTo := toBlock, count := sorted.length, items := sorted }

/-- The descending block enumeration of the `/native` handler's walk,
`for (let bn = latest; bn >= start; bn--)`: the block numbers visited,
newest first. -/
def descRange (latest start : Nat) : List Nat :=
  if _h : start ≤ latest then
    if _h2 : latest = start then [latest]
    else latest :: descRange (latest - 1) start
  else []
termination_by latest
decreasing_by omega

/-- The per-transaction loop of the `/native` handler over one block's
transactions: a transaction qualifies when the watched address `who`
(already lowercased) is its sender or recipient and `passNativeFilters`
admits its value; qualifying transactions are decoded and pushed, breaking
out as soon as `limit` is reached. -/
def nativeAppendTxs (cfg : Config) (chain who : String) (timestamp : Nat)
    (limit : Nat) (acc : List NativeItem) : List NativeTx → List NativeItem
  | [] => acc
  | tx :: rest =>
    let fromL := lowerStr tx.fromAddr
    let toL := lowerStr tx.toAddr
    let touches := fromL == who || toL == who
    if touches && passNativeFilters cfg tx.value then
      let item : NativeItem :=
        { chain := lowerStr chain, hash := tx.hash,
          blockNumber := tx.blockNumber, timestamp := timestamp,
          fromAddr := tx.fromAddr, toAddr := tx.toAddr, valueWei := tx.value,
          isSender := fromL == who, isReceiver := toL == who }
      let acc2 := acc ++ [item]
      if limit ≤ acc2.length then acc2
      else nativeAppendTxs cfg chain who timestamp limit acc2 rest
    else nativeAppendTxs cfg chain who timestamp limit acc rest

/-- The outer block walk of the `/native` handler: for each visited block
number, fetch the block, skip it when absent or empty
(`if (!block?.transactions?.length) continue;`), process its transactions,
and break out as soon as `limit` is reached. -/
def nativeScanBlocks (cfg : Config) (chain who : String)
    (getBlock : Nat → Option NativeBlock) (limit : Nat)
    (acc : List NativeItem) : List Nat → List NativeItem
  | [] => acc
  | bn :: rest =>
    match getBlock bn with
    | none => nativeScanBlocks cfg chain who getBlock limit acc rest
    | some block =>
      if block.transactions.isEmpty then
        nativeScanBlocks cfg chain who getBlock limit acc rest
      else
        let acc2 := nativeAppendTxs cfg chain who block.timestamp limit acc
          block.transactions
        if limit ≤ acc2.length then acc2
        else nativeScanBlocks cfg chain who getBlock limit acc2 rest

/-- The `GET /address/:chain/:address/native` handler: clamp the look-back
window (`Math.min(query.blocks || 800, 5000)`) and the result limit
(`Math.min(query.limit || 200, 1000)`), compute
`start = Math.max(0, latest - blocksToScan + 1)` (here as truncating `Nat`
subtraction `latest + 1 - blocksToScan`), walk blocks newest-first, and
report the scanned range. The `blocks` field of the report is
`latest - start + 1` clamped at 0, which over `Nat` is `latest + 1 - start`. -/
def nativeRoute (cfg : Config) (providers : String → Option Provider)
    (isAddress : String → Bool) (chain address : String)
    (blocksQ limitQ : Option Nat) : Except String NativeResult :=
  if !isAddress address then .error ("Invalid address: " ++ address)
  else match getProvider providers chain with
  | .error e => .error e
  | .ok p =>
    let blocksToScan := min (blocksQ.getD 800) 5000
    let limit := min (limitQ.getD 200) 1000
    let latest := p.latest
    let start := latest + 1 - blocksToScan
    let who := lowerStr address
    let items := nativeScanBlocks cfg chain who p.getBlock limit []
      (descRange latest start)
    .ok { chain := lowerStr chain, scannedFrom := start, scannedTo := latest,
          scannedBlocks := latest + 1 - start, count := items.length,
          items := items }

/-! ## Helper lemmas -/

theorem chunkRanges_nil {f t : Nat} (h : t < f) : chunkRanges f t = [] := by
  rw [chunkRanges]; simp [Nat.not_le.mpr h]

theorem chunkRanges_cons {f t : Nat} (h : f ≤ t) :
    chunkRanges f t = (f, min (f + 9999) t) :: chunkRanges (f + 10000) t := by
  rw [chunkRanges]; simp [h]

theorem chunkRanges_coverage (f t : Nat) :
    ∀ x, (∃ r ∈ chunkRanges f t, r.1 ≤ x ∧ x ≤ r.2) ↔ (f ≤ x ∧ x ≤ t) := by
  induction f, t using chunkRanges.induct with
  | case1 f t h ih =>
    intro x
    rw [chunkRanges_cons h]
    simp only [List.mem_cons]
    constructor
    · rintro ⟨r, hmem, hx1, hx2⟩
      rcases hmem with rfl | hr
      · refine ⟨hx1, ?_⟩
        simp only at hx2
        omega
      · have := (ih x).mp ⟨r, hr, hx1, hx2⟩
        omega
    · rintro ⟨h1, h2⟩
      by_cases hx : x ≤ min (f + 9999) t
      · exact ⟨(f, min (f + 9999) t), Or.inl rfl, h1, hx⟩
      · have hge : f + 10000 ≤ x := by omega
        obtain ⟨r, hr, ha, hb⟩ := (ih x).mpr ⟨hge, h2⟩
        exact ⟨r, Or.inr hr, ha, hb⟩
  | case2 f t h =>
    intro x
    rw [chunkRanges_nil (by omega)]
    simp
    omega

theorem chunkRanges_bounds (f t : Nat) :
    ∀ r ∈ chunkRanges f t, r.1 ≤ r.2 ∧ r.2 + 1 - r.1 ≤ 10000 := by
  induction f, t using chunkRanges.induct with
  | case1 f t h ih =>
    rw [chunkRanges_cons h]
    intro r hmem
    rcases List.mem_cons.mp hmem with rfl | hr
    · constructor
      · simp; omega
      · simp; omega
    · exact ih r hr
  | case2 f t h =>
    rw [chunkRanges_nil (by omega)]
    simp

theorem chunkRanges_getLast (f t : Nat) (h : f ≤ t) :
    (chunkRanges f t).getLast?.map Prod.snd = some t := by
  induction f, t using chunkRanges.induct with
  | case1 f t h2 ih =>
    rw [chunkRanges_cons h2, List.getLast?_cons]
    by_cases hrec : f + 10000 ≤ t
    · obtain ⟨y, hy, hy2⟩ := Option.map_eq_some'.mp (ih hrec)
      rw [hy]
      simpa using hy2
    · rw [chunkRanges_nil (by omega)]
      simp
      omega
  | case2 f t h2 =>
    omega

theorem chunkRanges_chain (f t : Nat) :
    List.Chain' (fun r s : Nat × Nat => s.1 = r.2 + 1) (chunkRanges f t) := by
  induction f, t using chunkRanges.induct with
  | case1 f t h ih =>
    rw [chunkRanges_cons h]
    rw [List.chain'_cons']
    refine ⟨?_, ih⟩
    intro b hb
    by_cases hrec : f + 10000 ≤ t
    · rw [chunkRanges_cons hrec] at hb
      simp at hb
      subst hb
      simp
      omega
    · rw [chunkRanges_nil (by omega)] at hb
      simp at hb
  | case2 f t h =>
    rw [chunkRanges_nil (by omega)]
    simp

theorem approvalsAppendLogs_eq (decode : LogEntry → ApprovalItem) (limit : Nat)
    (acc : List ApprovalItem) (logs : List LogEntry) (h : acc.length < limit) :
    approvalsAppendLogs decode limit acc logs =
      acc ++ (logs.map decode).take (limit - acc.length) := by
  induction logs generalizing acc with
  | nil => simp [approvalsAppendLogs]
  | cons log rest ih =>
    unfold approvalsAppendLogs
    by_cases hl : limit ≤ (acc ++ [decode log]).length
    · rw [if_pos hl]
      simp only [List.length_append, List.length_singleton] at hl
      have h1 : limit - acc.length = 1 := by omega
      rw [List.map_cons, h1]
      simp
    · rw [if_neg hl]
      simp only [List.length_append, List.length_singleton] at hl
      rw [ih _ (by simp; omega)]
      obtain ⟨k, hk⟩ : ∃ k, limit - acc.length = k + 1 := ⟨limit - acc.length - 1, by omega⟩
      rw [List.map_cons, hk, List.take_succ_cons]
      simp only [List.length_append, List.length_singleton]
      have h2 : limit - (acc.length + 1) = k := by omega
      rw [h2, List.append_assoc]
      rfl

theorem erc20AppendLogs_eq (cfg : Config) (env : FilterEnv) (chain token : String)
    (decode : LogEntry → TransferItem) (limit : Nat)
    (acc : List TransferItem) (logs : List LogEntry) (h : acc.length < limit) :
    erc20AppendLogs cfg env chain token decode limit acc logs =
      acc ++ ((logs.filter fun log => passTokenFilters cfg env chain token log.data).map
        decode).take (limit - acc.length) := by
  induction logs generalizing acc with
  | nil => simp [erc20AppendLogs]
  | cons log rest ih =>
    unfold erc20AppendLogs
    by_cases hp : passTokenFilters cfg env chain token log.data
    · rw [if_pos hp, List.filter_cons, if_pos hp]
      by_cases hl : limit ≤ (acc ++ [decode log]).length
      · rw [if_pos hl]
        simp only [List.length_append, List.length_singleton] at hl
        have h1 : limit - acc.length = 1 := by omega
        rw [List.map_cons, h1]
        simp
      · rw [if_neg hl]
        simp only [List.length_append, List.length_singleton] at hl
        rw [ih _ (by simp; omega)]
        obtain ⟨k, hk⟩ : ∃ k, limit - acc.length = k + 1 := ⟨limit - acc.length - 1, by omega⟩
        rw [List.map_cons, hk, List.take_succ_cons]
        simp only [List.length_append, List.length_singleton]
        have h2 : limit - (acc.length + 1) = k := by omega
        rw [h2, List.append_assoc]
        rfl
    · rw [if_neg hp, List.filter_cons, if_neg hp]
      exact ih acc h

theorem erc20ScanRanges_eq (cfg : Config) (env : FilterEnv) (chain token : String)
    (decode : LogEntry → TransferItem) (limit : Nat)
    (logsOf : Nat → Nat → List LogEntry) (acc : List TransferItem)
    (ranges : List (Nat × Nat)) (h : acc.length < limit) :
    erc20ScanRanges cfg env chain token decode limit logsOf acc ranges =
      acc ++ (((ranges.flatMap fun r => logsOf r.1 r.2).filter fun log =>
        passTokenFilters cfg env chain token log.data).map decode).take (limit - acc.length) := by
  induction ranges generalizing acc with
  | nil => simp [erc20ScanRanges]
  | cons r rest ih =>
    simp only [erc20ScanRanges]
    rw [erc20AppendLogs_eq cfg env chain token decode limit acc (logsOf r.1 r.2) h]
    rw [List.flatMap_cons, List.filter_append, List.map_append]
    set m1 := (((logsOf r.1 r.2).filter fun log =>
      passTokenFilters cfg env chain token log.data).map decode) with hm1
    set m2 := (((rest.flatMap fun r => logsOf r.1 r.2).filter fun log =>
      passTokenFilters cfg env chain token log.data).map decode) with hm2
    by_cases hl : limit ≤ (acc ++ m1.take (limit - acc.length)).length
    · rw [if_pos hl]
      rw [List.take_append_eq_append_take]
      have hble : limit - acc.length ≤ m1.length := by
        by_contra hgt
        push_neg at hgt
        rw [List.length_append, List.take_of_length_le (Nat.le_of_lt hgt)] at hl
        omega
      have hz : limit - acc.length - m1.length = 0 := by omega
      rw [hz, List.take_zero, List.append_nil]
    · rw [if_neg hl]
      have hlen : m1.length < limit - acc.length := by
        by_contra hge
        push_neg at hge
        apply hl
        rw [List.length_append, List.length_take_of_le hge]
        omega
      rw [List.take_of_length_le (Nat.le_of_lt hlen)]
      have hacc : (acc ++ m1).length < limit := by
        rw [List.take_of_length_le (Nat.le_of_lt hlen)] at hl
        omega
      rw [ih _ hacc]
      rw [List.take_append_eq_append_take, List.take_of_length_le (Nat.le_of_lt hlen)]
      simp only [List.length_append]
      rw [List.append_assoc, Nat.sub_sub]

theorem approvalsScanRanges_eq (decode : LogEntry → ApprovalItem) (limit : Nat)
    (logsOf : Nat → Nat → List LogEntry) (acc : List ApprovalItem)
    (ranges : List (Nat × Nat)) (h : acc.length < limit) :
    approvalsScanRanges decode limit logsOf acc ranges =
      acc ++ ((ranges.flatMap fun r => logsOf r.1 r.2).map decode).take
        (limit - acc.length) := by
  induction ranges generalizing acc with
  | nil => simp [approvalsScanRanges]
  | cons r rest ih =>
    simp only [approvalsScanRanges]
    rw [approvalsAppendLogs_eq decode limit acc (logsOf r.1 r.2) h]
    rw [List.flatMap_cons, List.map_append]
    set m1 := ((logsOf r.1 r.2).map decode) with hm1
    set m2 := ((rest.flatMap fun r => logsOf r.1 r.2).map decode) with hm2
    by_cases hl : limit ≤ (acc ++ m1.take (limit - acc.length)).length
    · rw [if_pos hl]
      rw [List.take_append_eq_append_take]
      have hble : limit - acc.length ≤ m1.length := by
        by_contra hgt
        push_neg at hgt
        rw [List.length_append, List.take_of_length_le (Nat.le_of_lt hgt)] at hl
        omega
      have hz : limit - acc.length - m1.length = 0 := by omega
      rw [hz, List.take_zero, List.append_nil]
    · rw [if_neg hl]
      have hlen : m1.length < limit - acc.length := by
        by_contra hge
        push_neg at hge
        apply hl
        rw [List.length_append, List.length_take_of_le hge]
        omega
      rw [List.take_of_length_le (Nat.le_of_lt hlen)]
      have hacc : (acc ++ m1).length < limit := by
        rw [List.take_of_length_le (Nat.le_of_lt hlen)] at hl
        omega
      rw [ih _ hacc]
      rw [List.take_append_eq_append_take, List.take_of_length_le (Nat.le_of_lt hlen)]
      simp only [List.length_append]
      rw [List.append_assoc, Nat.sub_sub]

theorem transferLE_trans (a b c : TransferItem) :
    transferLE a b = true → transferLE b c = true → transferLE a c = true := by
  simp only [transferLE, decide_eq_true_eq]
  omega

theorem transferLE_total (a b : TransferItem) :
    (transferLE a b || transferLE b a) = true := by
  simp only [transferLE, Bool.or_eq_true, decide_eq_true_eq]
  omega

theorem approvalLE_trans (a b c : ApprovalItem) :
    approvalLE a b = true → approvalLE b c = true → approvalLE a c = true := by
  simp only [approvalLE, decide_eq_true_eq]
  omega

theorem approvalLE_total (a b : ApprovalItem) :
    (approvalLE a b || approvalLE b a) = true := by
  simp only [approvalLE, Bool.or_eq_true, decide_eq_true_eq]
  omega

theorem erc20AppendLogs_mem (cfg : Config) (env : FilterEnv) (chain token : String)
    (decode : LogEntry → TransferItem) (limit : Nat)
    (acc : List TransferItem) (logs : List LogEntry) (it : TransferItem)
    (hmem : it ∈ erc20AppendLogs cfg env chain token decode limit acc logs) :
    it ∈ acc ∨ ∃ log ∈ logs,
      passTokenFilters cfg env chain token log.data = true ∧ it = decode log := by
  induction logs generalizing acc with
  | nil => exact Or.inl hmem
  | cons log rest ih =>
    unfold erc20AppendLogs at hmem
    by_cases hp : passTokenFilters cfg env chain token log.data
    · rw [if_pos hp] at hmem
      by_cases hl : limit ≤ (acc ++ [decode log]).length
      · rw [if_pos hl] at hmem
        rcases List.mem_append.mp hmem with hin | hin
        · exact Or.inl hin
        · exact Or.inr ⟨log, List.mem_cons_self _ _, hp, List.mem_singleton.mp hin⟩
      · rw [if_neg hl] at hmem
        rcases ih _ hmem with hin | ⟨l2, hl2, hp2, he2⟩
        · rcases List.mem_append.mp hin with hin2 | hin2
          · exact Or.inl hin2
          · exact Or.inr ⟨log, List.mem_cons_self _ _, hp, List.mem_singleton.mp hin2⟩
        · exact Or.inr ⟨l2, List.mem_cons_of_mem _ hl2, hp2, he2⟩
    · rw [if_neg hp] at hmem
      rcases ih _ hmem with hin | ⟨l2, hl2, hp2, he2⟩
      · exact Or.inl hin
      · exact Or.inr ⟨l2, List.mem_cons_of_mem _ hl2, hp2, he2⟩

theorem erc20ScanRanges_mem (cfg : Config) (env : FilterEnv) (chain token : String)
    (decode : LogEntry → TransferItem) (limit : Nat)
    (logsOf : Nat → Nat → List LogEntry) (acc : List TransferItem)
    (ranges : List (Nat × Nat)) (it : TransferItem)
    (hmem : it ∈ erc20ScanRanges cfg env chain token decode limit logsOf acc ranges) :
    it ∈ acc ∨ ∃ log, passTokenFilters cfg env chain token log.data = true ∧
      it = decode log := by
  induction ranges generalizing acc with
  | nil => exact Or.inl hmem
  | cons r rest ih =>
    simp only [erc20ScanRanges] at hmem
    by_cases hl : limit ≤ (erc20AppendLogs cfg env chain token decode limit acc
        (logsOf r.1 r.2)).length
    · rw [if_pos hl] at hmem
      rcases erc20AppendLogs_mem cfg env chain token decode limit acc _ it hmem with
        hin | ⟨log, _, hp2, he2⟩
      · exact Or.inl hin
      · exact Or.inr ⟨log, hp2, he2⟩
    · rw [if_neg hl] at hmem
      rcases ih _ hmem with hin | hrest
      · rcases erc20AppendLogs_mem cfg env chain token decode limit acc _ it hin with
          hin2 | ⟨log, _, hp2, he2⟩
        · exact Or.inl hin2
        · exact Or.inr ⟨log, hp2, he2⟩
      · exact Or.inr hrest

theorem descRange_eq (latest start : Nat) :
    descRange latest start = (List.range' start (latest + 1 - start)).reverse := by
  induction latest using Nat.strong_induction_on with
  | _ latest ih =>
    rw [descRange]
    by_cases h : start ≤ latest
    · rw [dif_pos h]
      by_cases h2 : latest = start
      · rw [dif_pos h2]
        subst h2
        have h1 : latest + 1 - latest = 1 := by omega
        rw [h1]
        simp
      · rw [dif_neg h2, ih (latest - 1) (by omega)]
        obtain ⟨k, hk⟩ : ∃ k, latest + 1 - start = k + 1 := ⟨latest - start, by omega⟩
        have hk2 : latest - 1 + 1 - start = k := by omega
        rw [hk2, hk, List.range'_concat, List.reverse_append]
        have hsk : start + 1 * k = latest := by omega
        rw [hsk]
        simp
    · rw [dif_neg h]
      have h0 : latest + 1 - start = 0 := by omega
      rw [h0]
      simp

theorem getErc20Meta_ok (providers : String → Option Provider)
    (fetch : String → String → Erc20Source) (cache : MetaCache) (now : Nat)
    (chain token : String) (p : Provider)
    (hProv : providers (lowerStr chain) = some p) :
    ∃ m c2, getErc20Meta providers fetch cache now chain token = .ok (m, c2) := by
  have hfetch : ∃ m c2, getErc20MetaFetch providers fetch cache now chain token =
      .ok (m, c2) := by
    unfold getErc20MetaFetch getProvider
    rw [hProv]
    exact ⟨_, _, rfl⟩
  unfold getErc20Meta
  cases hc : cacheGetErc20Meta cache chain token with
  | some hit =>
    show ∃ m c2, (if now - hit.ts < sixHoursMs then Except.ok (hit.meta, cache)
        else getErc20MetaFetch providers fetch cache now chain token) = .ok (m, c2)
    by_cases hfresh : now - hit.ts < sixHoursMs
    · rw [if_pos hfresh]
      exact ⟨hit.meta, cache, rfl⟩
    · rw [if_neg hfresh]
      exact hfetch
  | none =>
    exact hfetch

theorem erc20Route_eq (cfg : Config) (env : FilterEnv)
    (providers : String → Option Provider) (fetch : String → String → Erc20Source)
    (isAddress : String → Bool) (cache : MetaCache) (now : Nat)
    (chain address token : String) (fbQ tbQ limitQ : Option Nat)
    (p : Provider) (m : Erc20Meta) (c2 : MetaCache)
    (hAddr : isAddress address = true)
    (hProv : providers (lowerStr chain) = some p)
    (hTok : isAddress token = true)
    (hMeta : getErc20Meta providers fetch cache now chain token = .ok (m, c2)) :
    erc20Route cfg env providers fetch isAddress cache now chain address token fbQ tbQ limitQ =
      (if fbQ.getD (p.latest - 200000) > tbQ.getD p.latest then
        .error "fromBlock must be <= toBlock"
      else
        .ok { chain := lowerStr chain,
              scannedFrom := fbQ.getD (p.latest - 200000),
              scannedTo := tbQ.getD p.latest,
              count := ((erc20ScanRanges cfg env chain token
                (decodeTransfer chain token m.symbol m.name m.decimals address)
                (min (limitQ.getD 500) 2000)
                (fun a b => p.getLogs token (.transferFrom (addrTopic address)) a b ++
                  p.getLogs token (.transferTo (addrTopic address)) a b) []
                (chunkRanges (fbQ.getD (p.latest - 200000))
                  (tbQ.getD p.latest))).mergeSort transferLE).length,
              items := (erc20ScanRanges cfg env chain token
                (decodeTransfer chain token m.symbol m.name m.decimals address)
                (min (limitQ.getD 500) 2000)
                (fun a b => p.getLogs token (.transferFrom (addrTopic address)) a b ++
                  p.getLogs token (.transferTo (addrTopic address)) a b) []
                (chunkRanges (fbQ.getD (p.latest - 200000))
                  (tbQ.getD p.latest))).mergeSort transferLE }) := by
  unfold erc20Route getProvider
  rw [hAddr, hTok, hProv, hMeta]
  simp only [Bool.not_true]
  rfl

theorem approvalsRoute_eq (cfg : Config) (env : FilterEnv)
    (providers : String → Option Provider) (fetch : String → String → Erc20Source)
    (isAddress : String → Bool) (cache : MetaCache) (now : Nat)
    (chain address token : String) (fbQ tbQ limitQ : Option Nat)
    (p : Provider) (m : Erc20Meta) (c2 : MetaCache)
    (hAddr : isAddress address = true)
    (hProv : providers (lowerStr chain) = some p)
    (hTok : isAddress token = true)
    (hMeta : getErc20Meta providers fetch cache now chain token = .ok (m, c2)) :
    approvalsRoute cfg env providers fetch isAddress cache now chain address token fbQ tbQ limitQ =
      .ok { chain := lowerStr chain,
            scannedFrom := fbQ.getD (p.latest - 200000),
            scannedTo := tbQ.getD p.latest,
            count := ((approvalsScanRanges
              (decodeApproval chain token m.symbol m.name m.decimals address)
              (min (limitQ.getD 500) 2000)
              (fun a b => p.getLogs token (.approvalOwner (addrTopic address)) a b) []
              (chunkRanges (fbQ.getD (p.latest - 200000))
                (tbQ.getD p.latest))).mergeSort approvalLE).length,
            items := (approvalsScanRanges
              (decodeApproval chain token m.symbol m.name m.decimals address)
              (min (limitQ.getD 500) 2000)
              (fun a b => p.getLogs token (.approvalOwner (addrTopic address)) a b) []
              (chunkRanges (fbQ.getD (p.latest - 200000))
                (tbQ.getD p.latest))).mergeSort approvalLE } := by
  unfold approvalsRoute getProvider
  rw [hAddr, hTok, hProv, hMeta]
  simp only [Bool.not_true]
  rfl

theorem nativeRoute_eq (cfg : Config) (providers : String → Option Provider)
    (isAddress : String → Bool) (chain address : String)
    (blocksQ limitQ : Option Nat) (p : Provider)
    (hAddr : isAddress address = true)
    (hProv : providers (lowerStr chain) = some p) :
    nativeRoute cfg providers isAddress chain address blocksQ limitQ =
      .ok { chain := lowerStr chain,
            scannedFrom := p.latest + 1 - min (blocksQ.getD 800) 5000,
            scannedTo := p.latest,
            scannedBlocks := p.latest + 1 - (p.latest + 1 - min (blocksQ.getD 800) 5000),
            count := (nativeScanBlocks cfg chain (lowerStr address) p.getBlock
              (min (limitQ.getD 200) 1000) []
              (descRange p.latest (p.latest + 1 - min (blocksQ.getD 800) 5000))).length,
            items := nativeScanBlocks cfg chain (lowerStr address) p.getBlock
              (min (limitQ.getD 200) 1000) []
              (descRange p.latest (p.latest + 1 - min (blocksQ.getD 800) 5000)) } := by
  unfold nativeRoute getProvider
  rw [hAddr, hProv]
  simp only [Bool.not_true]
  rfl

/-! ## Concrete fixtures for witnesses and counterexamples -/

/-- A configuration with zero-value skipping on (the default), zero
thresholds, and the whitelist policy (the default). -/
def cfgStrict : Config :=
  { skipZeroValue := true, minNativeWei := 0, minErc20Raw := 0,
    allowAllTokens := false }

/-- Like the shipped config: every per-chain whitelist/blacklist is empty or
absent, so the open default policy applies. -/
def envOpen : FilterEnv :=
  { blacklist := fun _ => none, whitelist := fun _ => none }

/-- An environment where `0xbad` is both blacklisted and whitelisted on the
`eth` chain. -/
def envC3 : FilterEnv :=
  { blacklist := fun c => if c == "eth" then some ["0xbad"] else none,
    whitelist := fun c => if c == "eth" then some ["0xbad", "0xok"] else none }

/-- A configuration with the allow-all-tokens flag enabled. -/
def cfgAllowAll : Config :=
  { skipZeroValue := true, minNativeWei := 0, minErc20Raw := 0,
    allowAllTokens := true }

/-! ## Claims -/

/-- **C3.** The token filter evaluates its checks in the fixed order
blacklist, zero-value, minimum raw threshold, allow-all, whitelist,
default-allow: (1) a token whose lowercased address is in the chain's
blacklist is rejected unconditionally — in particular even if it is also in
the whitelist or `allowAllTokens` is enabled; (2) if a non-empty whitelist
exists for the chain and `allowAllTokens` is disabled, a token not in the
whitelist is rejected; (3) if no whitelist entries exist for the chain, a
token passing the blacklist, zero-value and minimum checks is accepted by
default. -/
theorem claim_C3 (cfg : Config) (env : FilterEnv) (chain token : String) (raw : Int) :
    (((env.blacklist chain).elim false (fun bl => bl.contains (lowerStr token))) = true →
      passTokenFilters cfg env chain token raw = false) ∧
    (∀ wl, env.whitelist chain = some wl → wl ≠ [] → cfg.allowAllTokens = false →
      wl.contains (lowerStr token) = false →
      passTokenFilters cfg env chain token raw = false) ∧
    ((env.whitelist chain = none ∨ env.whitelist chain = some []) →
      ((env.blacklist chain).elim false (fun bl => bl.contains (lowerStr token))) = false →
      ¬(cfg.skipZeroValue = true ∧ raw = 0) →
      cfg.minErc20Raw ≤ raw →
      passTokenFilters cfg env chain token raw = true) := by
  refine ⟨?_, ?_, ?_⟩
  · intro hbl
    unfold passTokenFilters
    rw [if_pos hbl]
  · intro wl hwl hne hall hmem
    unfold passTokenFilters
    split
    · rfl
    · split
      · rfl
      · split
        · rfl
        · rw [hall, if_neg (by simp), hwl]
          show (if wl.length > 0 then wl.contains (lowerStr token) else true) = false
          rw [if_pos (List.length_pos.mpr hne)]
          exact hmem
  · rintro hwl hbl hz hmin
    unfold passTokenFilters
    rw [if_neg (fun hc => by rw [hbl] at hc; cases hc)]
    rw [if_neg (by intro hcon; simp at hcon; exact hz ⟨hcon.1, hcon.2⟩)]
    rw [if_neg (by omega)]
    rcases hwl with hwl | hwl <;> rw [hwl] <;> split <;> simp

/-- Witness for C3: on chain `eth`, token `0xBAD` is rejected although it is
whitelisted and allow-all is on (blacklist wins); `0xother` is rejected by a
non-empty whitelist with allow-all off; with no whitelist configured,
`0xany` is accepted. -/
theorem claim_C3_witness :
    passTokenFilters cfgAllowAll envC3 "eth" "0xBAD" 5 = false ∧
    passTokenFilters cfgStrict envC3 "eth" "0xother" 5 = false ∧
    passTokenFilters cfgStrict envOpen "eth" "0xany" 7 = true :=
  ⟨(claim_C3 cfgAllowAll envC3 "eth" "0xBAD" 5).1 (by decide),
   (claim_C3 cfgStrict envC3 "eth" "0xother" 5).2.1 ["0xbad", "0xok"]
     (by decide) (by decide) rfl (by decide),
   (claim_C3 cfgStrict envOpen "eth" "0xany" 7).2.2 (Or.inl rfl)
     (by decide) (by decide) (by decide)⟩

/-- **C4.** For every pair `fromBlock ≤ toBlock`, the sub-ranges generated
by the chunked scan exactly cover the inclusive span with no gaps and no
overlaps: the first sub-range starts at `fromBlock`, the last ends at
`toBlock`, consecutive sub-ranges are contiguous, every sub-range is
well-formed and spans at most 10,000 blocks, and a block lies in some
sub-range iff it lies in `[fromBlock, toBlock]`. -/
theorem claim_C4 (f t : Nat) (h : f ≤ t) :
    ((chunkRanges f t).head?.map Prod.fst = some f) ∧
    ((chunkRanges f t).getLast?.map Prod.snd = some t) ∧
    List.Chain' (fun r s : Nat × Nat => s.1 = r.2 + 1) (chunkRanges f t) ∧
    (∀ r ∈ chunkRanges f t, r.1 ≤ r.2 ∧ r.2 + 1 - r.1 ≤ 10000) ∧
    (∀ x, (∃ r ∈ chunkRanges f t, r.1 ≤ x ∧ x ≤ r.2) ↔ (f ≤ x ∧ x ≤ t)) := by
  refine ⟨?_, chunkRanges_getLast f t h, chunkRanges_chain f t,
    chunkRanges_bounds f t, chunkRanges_coverage f t⟩
  rw [chunkRanges_cons h]
  simp

/-- Witness for C4 at the span `[5, 30000]` (four sub-ranges). -/
theorem claim_C4_witness :
    5 ≤ 30000 ∧
    (((chunkRanges 5 30000).head?.map Prod.fst = some 5) ∧
    ((chunkRanges 5 30000).getLast?.map Prod.snd = some 30000) ∧
    List.Chain' (fun r s : Nat × Nat => s.1 = r.2 + 1) (chunkRanges 5 30000) ∧
    (∀ r ∈ chunkRanges 5 30000, r.1 ≤ r.2 ∧ r.2 + 1 - r.1 ≤ 10000) ∧
    (∀ x, (∃ r ∈ chunkRanges 5 30000, r.1 ≤ x ∧ x ≤ r.2) ↔ (5 ≤ x ∧ x ≤ 30000))) :=
  ⟨by decide, claim_C4 5 30000 (by decide)⟩

/-- **C7.** For a raw amount of exactly zero, if the zero-value skip flag is
enabled, both the token filter and the native filter reject, for every
chain, token, threshold configuration and whitelist/allow-all setting. -/
theorem claim_C7 (cfg : Config) (env : FilterEnv) (chain token : String)
    (h : cfg.skipZeroValue = true) :
    passTokenFilters cfg env chain token 0 = false ∧
    passNativeFilters cfg 0 = false := by
  constructor
  · unfold passTokenFilters
    split
    · rfl
    · rw [if_pos (by simp [h])]
  · unfold passNativeFilters
    rw [if_pos (by simp [h])]

/-- Witness for C7 with the default-style strict configuration. -/
theorem claim_C7_witness :
    passTokenFilters cfgStrict envOpen "eth" "0xtok" 0 = false ∧
    passNativeFilters cfgStrict 0 = false :=
  claim_C7 cfgStrict envOpen "eth" "0xtok" rfl


/-- A Transfer log with a nonzero amount, block 10, log index 0. -/
def logA : LogEntry :=
  { txHash := "0xa", blockNumber := 10, logIndex := 0,
    topic1 := "t1", topic2 := "t2", data := 5 }

/-- A second Transfer log with a nonzero amount, block 10, log index 1. -/
def logB : LogEntry :=
  { txHash := "0xb", blockNumber := 10, logIndex := 1,
    topic1 := "t1", topic2 := "t2", data := 7 }

/-- A log source returning the same two-log batch for every sub-range. -/
def logsTwo : Nat → Nat → List LogEntry := fun _ _ => [logA, logB]

/-- **C5 (amended).** In the ERC-20 transfer and approval scans,
accumulation stops as soon as the result limit is reached, and the limit
check is performed after each appended item — inside the per-log loop, not
only after each sub-range's batch: for `limit ≥ 1` the accumulated items
are exactly the first `limit` (filtered, for transfers) decoded logs, so
the item count never exceeds the limit, not even within one sub-range's
batch. -/
theorem claim_C5 (cfg : Config) (env : FilterEnv) (chain token : String)
    (decodeT : LogEntry → TransferItem) (decodeA : LogEntry → ApprovalItem)
    (limit : Nat) (logsOf : Nat → Nat → List LogEntry)
    (ranges : List (Nat × Nat)) (h : 1 ≤ limit) :
    (erc20ScanRanges cfg env chain token decodeT limit logsOf [] ranges =
      (((ranges.flatMap fun r => logsOf r.1 r.2).filter fun log =>
        passTokenFilters cfg env chain token log.data).map decodeT).take limit) ∧
    (erc20ScanRanges cfg env chain token decodeT limit logsOf [] ranges).length ≤ limit ∧
    (approvalsScanRanges decodeA limit logsOf [] ranges =
      ((ranges.flatMap fun r => logsOf r.1 r.2).map decodeA).take limit) ∧
    (approvalsScanRanges decodeA limit logsOf [] ranges).length ≤ limit := by
  have h0 : ([] : List TransferItem).length < limit := by simpa using h
  have h0a : ([] : List ApprovalItem).length < limit := by simpa using h
  have h1 := erc20ScanRanges_eq cfg env chain token decodeT limit logsOf [] ranges h0
  have h2 := approvalsScanRanges_eq decodeA limit logsOf [] ranges h0a
  simp only [List.nil_append, List.length_nil, Nat.sub_zero] at h1 h2
  refine ⟨h1, ?_, h2, ?_⟩
  · rw [h1]
    exact List.length_take_le _ _
  · rw [h2]
    exact List.length_take_le _ _

/-- Witness for C5: two batches of two passing logs each, limit 3 — the
scan stops exactly one item into the second batch. -/
theorem claim_C5_witness :
    1 ≤ 3 ∧
    ((erc20ScanRanges cfgAllowAll envOpen "eth" "0xtok"
      (decodeTransfer "eth" "0xtok" "UNK" "Unknown Token" 18 "0xme")
      3 logsTwo [] [(0, 9999), (10000, 19999)] =
      ((([(0, 9999), (10000, 19999)].flatMap fun r =>
          logsTwo r.1 r.2).filter fun log =>
        passTokenFilters cfgAllowAll envOpen "eth" "0xtok" log.data).map
        (decodeTransfer "eth" "0xtok" "UNK" "Unknown Token" 18 "0xme")).take 3) ∧
    (erc20ScanRanges cfgAllowAll envOpen "eth" "0xtok"
      (decodeTransfer "eth" "0xtok" "UNK" "Unknown Token" 18 "0xme")
      3 logsTwo [] [(0, 9999), (10000, 19999)]).length ≤ 3 ∧
    (approvalsScanRanges (decodeApproval "eth" "0xtok" "UNK" "Unknown Token" 18 "0xme")
      3 logsTwo [] [(0, 9999), (10000, 19999)] =
      (([(0, 9999), (10000, 19999)].flatMap fun r => logsTwo r.1 r.2).map
        (decodeApproval "eth" "0xtok" "UNK" "Unknown Token" 18 "0xme")).take 3) ∧
    (approvalsScanRanges (decodeApproval "eth" "0xtok" "UNK" "Unknown Token" 18 "0xme")
      3 logsTwo [] [(0, 9999), (10000, 19999)]).length ≤ 3) :=
  ⟨by decide,
   claim_C5 cfgAllowAll envOpen "eth" "0xtok"
     (decodeTransfer "eth" "0xtok" "UNK" "Unknown Token" 18 "0xme")
     (decodeApproval "eth" "0xtok" "UNK" "Unknown Token" 18 "0xme")
     3 logsTwo [(0, 9999), (10000, 19999)] (by decide)⟩

/-- Counterexample to C5 as stated: a single sub-range whose batch holds
two logs that both pass the filter, with result limit 1. Under the claimed
"check only after each sub-range's batch" semantics the accumulated count
would reach 2, exceeding the limit within the batch; the code's scan
returns exactly 1 item — the check fires mid-batch, immediately after the
first push, so the count never exceeds the limit. -/
theorem claim_C5_counterexample :
    (erc20ScanRanges cfgStrict envOpen "eth" "0xtok"
      (decodeTransfer "eth" "0xtok" "UNK" "Unknown Token" 18 "0xme")
      1 logsTwo [] [(0, 9999)]).length = 1 ∧
    ((logsTwo 0 9999).filter fun log =>
      passTokenFilters cfgStrict envOpen "eth" "0xtok" log.data).length = 2 := by
  decide



/-- A Transfer log with amount zero (typical airdrop-spam shape). -/
def logZero : LogEntry :=
  { txHash := "0xz", blockNumber := 7, logIndex := 0,
    topic1 := "t1", topic2 := "t2", data := 0 }

/-- A provider whose transferFrom-topic query returns the single log
`logA` and whose other queries return nothing. -/
def provLogA : Provider :=
  { latest := 50,
    getLogs := fun _ q _ _ =>
      match q with
      | .transferFrom _ => [logA]
      | _ => [],
    getBlock := fun _ => none }

/-- A provider every one of whose log queries returns the zero-amount log. -/
def provZero : Provider :=
  { latest := 50, getLogs := fun _ _ _ _ => [logZero], getBlock := fun _ => none }

/-- Provider map binding only the `eth` chain, to `provLogA`. -/
def providersA : String → Option Provider :=
  fun c => if c == "eth" then some provLogA else none

/-- Provider map binding only the `eth` chain, to `provZero`. -/
def providersZ : String → Option Provider :=
  fun c => if c == "eth" then some provZero else none

/-- A metadata source whose three upstream calls all fail. -/
def fetchNone : String → String → Erc20Source :=
  fun _ _ => { symbolResult := none, nameResult := none, decimalsResult := none }

/-- An address validator accepting everything (stands for `ethers.isAddress`
on well-formed inputs). -/
def isAddrAll : String → Bool := fun _ => true

/-- The all-fallback metadata value. -/
def metaUnk : Erc20Meta := { symbol := "UNK", name := "Unknown Token", decimals := 18 }

/-- The metadata lookup against `providersA`/`fetchNone` degrades every
field and succeeds. -/
theorem getErc20Meta_sampleA : getErc20Meta providersA fetchNone [] 0 "eth" "0xtok" =
    .ok (metaUnk, cacheSetErc20Meta [] "eth" "0xtok" metaUnk 0) := rfl

/-- Expected `/erc20` response for the sample input used below. -/
def outSample : Erc20Result :=
  { chain := "eth", scannedFrom := 5, scannedTo := 5, count := 1,
    items := [decodeTransfer "eth" "0xtok" "UNK" "Unknown Token" 18 "0xme" logA] }

/-- Concrete evaluation of the `/erc20` route on the one-log provider. -/
theorem erc20Route_sampleA_ok : erc20Route cfgAllowAll envOpen providersA fetchNone isAddrAll [] 0
    "eth" "0xme" "0xtok" (some 5) (some 5) (some 2) = .ok outSample := by
  rw [erc20Route_eq cfgAllowAll envOpen providersA fetchNone isAddrAll [] 0
      "eth" "0xme" "0xtok" (some 5) (some 5) (some 2) provLogA metaUnk _
      rfl rfl rfl getErc20Meta_sampleA]
  rw [if_neg (by decide)]
  simp only [Option.getD_some]
  rw [chunkRanges_cons (by decide), chunkRanges_nil (by decide : (5:Nat) < 5 + 10000)]
  norm_num
  have hscan : erc20ScanRanges cfgAllowAll envOpen "eth" "0xtok"
      (decodeTransfer "eth" "0xtok" metaUnk.symbol metaUnk.name metaUnk.decimals "0xme") 2
      (fun a b => provLogA.getLogs "0xtok" (.transferFrom (addrTopic "0xme")) a b ++
        provLogA.getLogs "0xtok" (.transferTo (addrTopic "0xme")) a b) [] [(5, 5)] =
      [decodeTransfer "eth" "0xtok" "UNK" "Unknown Token" 18 "0xme" logA] := by decide
  rw [hscan, List.mergeSort_singleton]
  decide

/-- **C1 (amended).** The anti-spam token filter is applied to each decoded
log of the ERC-20 *transfer* scan — every record in an `/erc20` response
carries a raw amount that passed `passTokenFilters` — but the *approvals*
scan applies no token filter at all: its accumulated items are exactly the
first `limit` decoded Approval logs, irrespective of the blacklist,
zero-value, minimum-threshold and whitelist policy. -/
theorem claim_C1 (cfg : Config) (env : FilterEnv)
    (providers : String → Option Provider) (fetch : String → String → Erc20Source)
    (isAddress : String → Bool) (cache : MetaCache) (now : Nat)
    (chain address token : String) (fbQ tbQ limitQ : Option Nat)
    (out : Erc20Result)
    (decodeA : LogEntry → ApprovalItem) (limit : Nat)
    (logsOf : Nat → Nat → List LogEntry) (ranges : List (Nat × Nat)) :
    (erc20Route cfg env providers fetch isAddress cache now chain address token
        fbQ tbQ limitQ = .ok out →
      ∀ it ∈ out.items, passTokenFilters cfg env chain token it.valueRaw = true) ∧
    (1 ≤ limit →
      approvalsScanRanges decodeA limit logsOf [] ranges =
        ((ranges.flatMap fun r => logsOf r.1 r.2).map decodeA).take limit) := by
  constructor
  · intro hOk it hit
    unfold erc20Route at hOk
    split at hOk
    · exact Except.noConfusion hOk
    · split at hOk
      · exact Except.noConfusion hOk
      · split at hOk
        · exact Except.noConfusion hOk
        · split at hOk
          · exact Except.noConfusion hOk
          · dsimp only at hOk
            split at hOk
            · exact Except.noConfusion hOk
            · rw [Except.ok.injEq] at hOk
              subst hOk
              rcases erc20ScanRanges_mem cfg env chain token _ _ _ [] _ it
                  (List.mem_mergeSort.mp hit) with hin | ⟨log, hp, he⟩
              · exact absurd hin (List.not_mem_nil it)
              · subst he
                simpa [decodeTransfer] using hp
  · intro hlim
    have h0 : ([] : List ApprovalItem).length < limit := by simpa using hlim
    have h2 := approvalsScanRanges_eq decodeA limit logsOf [] ranges h0
    simpa using h2

/-- Witness for C1: a concrete `/erc20` response whose single item passed
the filter, and a concrete approvals scan taking the first two decoded
logs. -/
theorem claim_C1_witness :
    ((erc20Route cfgAllowAll envOpen providersA fetchNone isAddrAll [] 0
        "eth" "0xme" "0xtok" (some 5) (some 5) (some 2) = .ok outSample) ∧
     (∀ it ∈ outSample.items,
        passTokenFilters cfgAllowAll envOpen "eth" "0xtok" it.valueRaw = true)) ∧
    (1 ≤ 2 ∧
     approvalsScanRanges (decodeApproval "eth" "0xtok" "UNK" "Unknown Token" 18 "0xme")
        2 logsTwo [] [(0, 9999)] =
       (([(0, 9999)].flatMap fun r => logsTwo r.1 r.2).map
         (decodeApproval "eth" "0xtok" "UNK" "Unknown Token" 18 "0xme")).take 2) :=
  ⟨⟨erc20Route_sampleA_ok,
    (claim_C1 cfgAllowAll envOpen providersA fetchNone isAddrAll [] 0
      "eth" "0xme" "0xtok" (some 5) (some 5) (some 2) outSample
      (decodeApproval "eth" "0xtok" "UNK" "Unknown Token" 18 "0xme") 2
      logsTwo [(0, 9999)]).1 erc20Route_sampleA_ok⟩,
   ⟨by decide,
    (claim_C1 cfgAllowAll envOpen providersA fetchNone isAddrAll [] 0
      "eth" "0xme" "0xtok" (some 5) (some 5) (some 2) outSample
      (decodeApproval "eth" "0xtok" "UNK" "Unknown Token" 18 "0xme") 2
      logsTwo [(0, 9999)]).2 (by decide)⟩⟩

/-- Counterexample to C1 as stated: with the default configuration
(zero-value skip on), a raw amount of `0` fails the token filter, yet the
`/approvals` route includes the decoded record for a zero-amount Approval
log in its result — the filter is never consulted on the approvals path. -/
theorem claim_C1_counterexample :
    passTokenFilters cfgStrict envOpen "eth" "0xtok" 0 = false ∧
    (approvalsRoute cfgStrict envOpen providersZ fetchNone isAddrAll [] 0
        "eth" "0xme" "0xtok" (some 5) (some 5) (some 2)).map
      (fun out => out.items.map (fun it => it.valueRaw)) = .ok [0] := by
  constructor
  · decide
  · rw [approvalsRoute_eq cfgStrict envOpen providersZ fetchNone isAddrAll [] 0
        "eth" "0xme" "0xtok" (some 5) (some 5) (some 2) provZero metaUnk _
        rfl rfl rfl rfl]
    simp only [Option.getD_some]
    rw [chunkRanges_cons (by decide), chunkRanges_nil (by decide : (5:Nat) < 5 + 10000)]
    norm_num
    have hscan : approvalsScanRanges
        (decodeApproval "eth" "0xtok" metaUnk.symbol metaUnk.name metaUnk.decimals "0xme") 2
        (fun a b => provZero.getLogs "0xtok" (.approvalOwner (addrTopic "0xme")) a b)
        [] [(5, 5)] =
        [decodeApproval "eth" "0xtok" "UNK" "Unknown Token" 18 "0xme" logZero] := by decide
    rw [hscan, List.mergeSort_singleton]
    rfl

/-- **C2 (amended).** When both `fromBlock` and `toBlock` are given with
`fromBlock > toBlock`, the ERC-20 *transfer* scan fails with the
validation error before any scan begins; the *approvals* scan performs no
such validation — it proceeds, generates an empty sub-range list (so no
log query is issued) and succeeds with an empty result instead of
failing. -/
theorem claim_C2 (cfg : Config) (env : FilterEnv)
    (providers : String → Option Provider) (fetch : String → String → Erc20Source)
    (isAddress : String → Bool) (cache : MetaCache) (now : Nat)
    (chain address token : String) (fb tb : Nat) (limitQ : Option Nat)
    (p : Provider) (hAddr : isAddress address = true)
    (hProv : providers (lowerStr chain) = some p)
    (hTok : isAddress token = true) (hgt : tb < fb) :
    erc20Route cfg env providers fetch isAddress cache now chain address token
      (some fb) (some tb) limitQ = .error "fromBlock must be <= toBlock" ∧
    ∃ out, approvalsRoute cfg env providers fetch isAddress cache now chain address token
        (some fb) (some tb) limitQ = .ok out ∧ out.items = [] ∧ out.count = 0 := by
  obtain ⟨m, c2, hMeta⟩ := getErc20Meta_ok providers fetch cache now chain token p hProv
  constructor
  · rw [erc20Route_eq cfg env providers fetch isAddress cache now chain address token
        (some fb) (some tb) limitQ p m c2 hAddr hProv hTok hMeta]
    rw [if_pos (by simpa using hgt)]
  · rw [approvalsRoute_eq cfg env providers fetch isAddress cache now chain address token
        (some fb) (some tb) limitQ p m c2 hAddr hProv hTok hMeta]
    simp only [Option.getD_some]
    rw [chunkRanges_nil hgt]
    exact ⟨_, rfl, by simp [approvalsScanRanges], by simp [approvalsScanRanges]⟩

/-- Witness for C2 at `fromBlock = 10 > toBlock = 5` on the sample `eth`
provider. -/
theorem claim_C2_witness :
    (isAddrAll "0xme" = true ∧ providersA (lowerStr "eth") = some provLogA ∧
     isAddrAll "0xtok" = true ∧ 5 < 10) ∧
    (erc20Route cfgStrict envOpen providersA fetchNone isAddrAll [] 0
        "eth" "0xme" "0xtok" (some 10) (some 5) none =
      .error "fromBlock must be <= toBlock" ∧
     ∃ out, approvalsRoute cfgStrict envOpen providersA fetchNone isAddrAll [] 0
        "eth" "0xme" "0xtok" (some 10) (some 5) none = .ok out ∧
        out.items = [] ∧ out.count = 0) :=
  ⟨⟨rfl, rfl, rfl, by decide⟩,
   claim_C2 cfgStrict envOpen providersA fetchNone isAddrAll [] 0
     "eth" "0xme" "0xtok" 10 5 none provLogA rfl rfl rfl (by decide)⟩

/-- Counterexample to C2 as stated: with `fromBlock = 10 > toBlock = 5`
the `/approvals` route does not fail with a `ValidationError` — it
returns a successful empty response. -/
theorem claim_C2_counterexample :
    approvalsRoute cfgStrict envOpen providersZ fetchNone isAddrAll [] 0
      "eth" "0xme" "0xtok" (some 10) (some 5) none =
      .ok { chain := "eth", scannedFrom := 10, scannedTo := 5, count := 0,
            items := [] } := by
  rw [approvalsRoute_eq cfgStrict envOpen providersZ fetchNone isAddrAll [] 0
      "eth" "0xme" "0xtok" (some 10) (some 5) none provZero metaUnk _
      rfl rfl rfl rfl]
  simp only [Option.getD_some]
  rw [chunkRanges_nil (by decide)]
  simp only [approvalsScanRanges, List.mergeSort_nil, List.length_nil]
  rfl

/-- Expected `/approvals` response for the zero-amount-log provider. -/
def outSampleZ : ApprovalsResult :=
  { chain := "eth", scannedFrom := 5, scannedTo := 5, count := 1,
    items := [decodeApproval "eth" "0xtok" "UNK" "Unknown Token" 18 "0xme" logZero] }

/-- Concrete evaluation of the `/approvals` route on the zero-amount-log
provider. -/
theorem approvalsRoute_sampleZ_ok :
    approvalsRoute cfgStrict envOpen providersZ fetchNone isAddrAll [] 0
      "eth" "0xme" "0xtok" (some 5) (some 5) (some 2) = .ok outSampleZ := by
  rw [approvalsRoute_eq cfgStrict envOpen providersZ fetchNone isAddrAll [] 0
      "eth" "0xme" "0xtok" (some 5) (some 5) (some 2) provZero metaUnk _
      rfl rfl rfl rfl]
  simp only [Option.getD_some]
  rw [chunkRanges_cons (by decide), chunkRanges_nil (by decide : (5:Nat) < 5 + 10000)]
  norm_num
  have hscan : approvalsScanRanges
      (decodeApproval "eth" "0xtok" metaUnk.symbol metaUnk.name metaUnk.decimals "0xme") 2
      (fun a b => provZero.getLogs "0xtok" (.approvalOwner (addrTopic "0xme")) a b)
      [] [(5, 5)] =
      [decodeApproval "eth" "0xtok" "UNK" "Unknown Token" 18 "0xme" logZero] := by decide
  rw [hscan, List.mergeSort_singleton]
  rfl

/-- **C6.** Every event list produced by the ERC-20 transfer and approval
routes is sorted by descending block number, with descending log index as
the tie-break among items of equal block number (newest event first). -/
theorem claim_C6 (cfg : Config) (env : FilterEnv)
    (providers : String → Option Provider) (fetch : String → String → Erc20Source)
    (isAddress : String → Bool) (cache : MetaCache) (now : Nat)
    (chain address token : String) (fbQ tbQ limitQ : Option Nat)
    (out : Erc20Result) (out2 : ApprovalsResult) :
    (erc20Route cfg env providers fetch isAddress cache now chain address token
        fbQ tbQ limitQ = .ok out →
      out.items.Pairwise (fun x y => y.blockNumber < x.blockNumber ∨
        (y.blockNumber = x.blockNumber ∧ y.logIndex ≤ x.logIndex))) ∧
    (approvalsRoute cfg env providers fetch isAddress cache now chain address token
        fbQ tbQ limitQ = .ok out2 →
      out2.items.Pairwise (fun x y => y.blockNumber < x.blockNumber ∨
        (y.blockNumber = x.blockNumber ∧ y.logIndex ≤ x.logIndex))) := by
  constructor
  · intro hOk
    unfold erc20Route at hOk
    split at hOk
    · exact Except.noConfusion hOk
    · split at hOk
      · exact Except.noConfusion hOk
      · split at hOk
        · exact Except.noConfusion hOk
        · split at hOk
          · exact Except.noConfusion hOk
          · dsimp only at hOk
            split at hOk
            · exact Except.noConfusion hOk
            · rw [Except.ok.injEq] at hOk
              subst hOk
              exact (List.sorted_mergeSort transferLE_trans transferLE_total
                _).imp (fun hxy => by simpa [transferLE] using hxy)
  · intro hOk
    unfold approvalsRoute at hOk
    split at hOk
    · exact Except.noConfusion hOk
    · split at hOk
      · exact Except.noConfusion hOk
      · split at hOk
        · exact Except.noConfusion hOk
        · split at hOk
          · exact Except.noConfusion hOk
          · rw [Except.ok.injEq] at hOk
            subst hOk
            exact (List.sorted_mergeSort approvalLE_trans approvalLE_total
              _).imp (fun hxy => by simpa [approvalLE] using hxy)

/-- Witness for C6 on the two sample route evaluations. -/
theorem claim_C6_witness :
    ((erc20Route cfgAllowAll envOpen providersA fetchNone isAddrAll [] 0
        "eth" "0xme" "0xtok" (some 5) (some 5) (some 2) = .ok outSample) ∧
     outSample.items.Pairwise (fun x y => y.blockNumber < x.blockNumber ∨
       (y.blockNumber = x.blockNumber ∧ y.logIndex ≤ x.logIndex))) ∧
    ((approvalsRoute cfgStrict envOpen providersZ fetchNone isAddrAll [] 0
        "eth" "0xme" "0xtok" (some 5) (some 5) (some 2) = .ok outSampleZ) ∧
     outSampleZ.items.Pairwise (fun x y => y.blockNumber < x.blockNumber ∨
       (y.blockNumber = x.blockNumber ∧ y.logIndex ≤ x.logIndex))) :=
  ⟨⟨erc20Route_sampleA_ok,
    (claim_C6 cfgAllowAll envOpen providersA fetchNone isAddrAll [] 0
      "eth" "0xme" "0xtok" (some 5) (some 5) (some 2) outSample outSampleZ).1
      erc20Route_sampleA_ok⟩,
   ⟨approvalsRoute_sampleZ_ok,
    (claim_C6 cfgStrict envOpen providersZ fetchNone isAddrAll [] 0
      "eth" "0xme" "0xtok" (some 5) (some 5) (some 2) outSample outSampleZ).2
      approvalsRoute_sampleZ_ok⟩⟩

/-- The cache lookup finds a freshly written entry (the `Map.set` /
`Map.get` round trip of the source). -/
theorem cacheGetErc20Meta_set (cache : MetaCache) (chain token : String)
    (m : Erc20Meta) (now : Nat) :
    cacheGetErc20Meta (cacheSetErc20Meta cache chain token m now) chain token =
      some { meta := m, ts := now } := by
  unfold cacheGetErc20Meta cacheSetErc20Meta
  simp [List.find?]

/-- **C8.** The native scan clamps the look-back window to at most 5000
blocks (default 800) and the result limit to at most 1000 (default 200),
computes the inclusive start block as `max(0, latest - window + 1)` (the
truncating `latest + 1 - window` over `Nat`), and walks blocks from
`latest` down to `start` (the reversed ascending enumeration, newest
first), so the reported scanned range covers exactly the blocks from that
start to `latest`. -/
theorem claim_C8 (cfg : Config) (providers : String → Option Provider)
    (isAddress : String → Bool) (chain address : String)
    (blocksQ limitQ : Option Nat) (p : Provider)
    (hAddr : isAddress address = true)
    (hProv : providers (lowerStr chain) = some p) :
    ∃ out, nativeRoute cfg providers isAddress chain address blocksQ limitQ = .ok out ∧
      min (blocksQ.getD 800) 5000 ≤ 5000 ∧
      (blocksQ = none → min (blocksQ.getD 800) 5000 = 800) ∧
      min (limitQ.getD 200) 1000 ≤ 1000 ∧
      (limitQ = none → min (limitQ.getD 200) 1000 = 200) ∧
      out.scannedFrom = p.latest + 1 - min (blocksQ.getD 800) 5000 ∧
      out.scannedTo = p.latest ∧
      out.scannedBlocks = p.latest + 1 - out.scannedFrom ∧
      out.items = nativeScanBlocks cfg chain (lowerStr address) p.getBlock
        (min (limitQ.getD 200) 1000) []
        ((List.range' out.scannedFrom out.scannedBlocks).reverse) := by
  refine ⟨_, nativeRoute_eq cfg providers isAddress chain address blocksQ limitQ p
    hAddr hProv, ?_, ?_, ?_, ?_, rfl, rfl, rfl, ?_⟩
  · exact min_le_right _ _
  · intro h
    subst h
    rfl
  · exact min_le_right _ _
  · intro h
    subst h
    rfl
  · exact congrArg _ (descRange_eq p.latest (p.latest + 1 - min (blocksQ.getD 800) 5000)).symm |>.symm

/-- Witness for C8 on the sample `eth` provider with default query
parameters. -/
theorem claim_C8_witness :
    (isAddrAll "0xme" = true ∧ providersA (lowerStr "eth") = some provLogA) ∧
    (∃ out, nativeRoute cfgStrict providersA isAddrAll "eth" "0xme" none none = .ok out ∧
      min ((none : Option Nat).getD 800) 5000 ≤ 5000 ∧
      ((none : Option Nat) = none → min ((none : Option Nat).getD 800) 5000 = 800) ∧
      min ((none : Option Nat).getD 200) 1000 ≤ 1000 ∧
      ((none : Option Nat) = none → min ((none : Option Nat).getD 200) 1000 = 200) ∧
      out.scannedFrom = provLogA.latest + 1 - min ((none : Option Nat).getD 800) 5000 ∧
      out.scannedTo = provLogA.latest ∧
      out.scannedBlocks = provLogA.latest + 1 - out.scannedFrom ∧
      out.items = nativeScanBlocks cfgStrict "eth" (lowerStr "0xme") provLogA.getBlock
        (min ((none : Option Nat).getD 200) 1000) []
        ((List.range' out.scannedFrom out.scannedBlocks).reverse)) :=
  ⟨⟨rfl, rfl⟩, claim_C8 cfgStrict providersA isAddrAll "eth" "0xme" none none
    provLogA rfl rfl⟩

/-- **C9.** In the token metadata lookup (on the fetch path, i.e. without
a fresh cache entry), a failure of any individual upstream field fetch
degrades only that field to its fallback value (symbol `"UNK"`, name
`"Unknown Token"`, decimals 18) while the other fields keep their fetched
values; the lookup still succeeds and caches the assembled result. A
missing ActiveProvider for the chain instead fails the whole lookup with
the unavailable-chain error. -/
theorem claim_C9 (providers : String → Option Provider)
    (fetch : String → String → Erc20Source) (cache : MetaCache) (now : Nat)
    (chain token : String)
    (hMiss : cacheGetErc20Meta cache chain token = none) :
    (∀ p, providers (lowerStr chain) = some p →
      getErc20Meta providers fetch cache now chain token =
        .ok ({ symbol := (fetch chain token).symbolResult.getD "UNK",
               name := (fetch chain token).nameResult.getD "Unknown Token",
               decimals := if (fetch chain token).decimalsResult.getD 18 == 0 then 18
                 else (fetch chain token).decimalsResult.getD 18 },
             cacheSetErc20Meta cache chain token
               { symbol := (fetch chain token).symbolResult.getD "UNK",
                 name := (fetch chain token).nameResult.getD "Unknown Token",
                 decimals := if (fetch chain token).decimalsResult.getD 18 == 0 then 18
                   else (fetch chain token).decimalsResult.getD 18 } now) ∧
      cacheGetErc20Meta (cacheSetErc20Meta cache chain token
          { symbol := (fetch chain token).symbolResult.getD "UNK",
            name := (fetch chain token).nameResult.getD "Unknown Token",
            decimals := if (fetch chain token).decimalsResult.getD 18 == 0 then 18
              else (fetch chain token).decimalsResult.getD 18 } now) chain token ≠ none) ∧
    (providers (lowerStr chain) = none →
      getErc20Meta providers fetch cache now chain token =
        .error ("Unsupported or unavailable chain " ++ chain)) := by
  constructor
  · intro p hp
    constructor
    · unfold getErc20Meta
      rw [hMiss]
      unfold getErc20MetaFetch getProvider
      rw [hp]
    · rw [cacheGetErc20Meta_set]
      exact Option.noConfusion
  · intro hnone
    unfold getErc20Meta
    rw [hMiss]
    unfold getErc20MetaFetch getProvider
    rw [hnone]

/-- A metadata source where only the symbol fetch fails. -/
def fetchMixed : String → String → Erc20Source :=
  fun _ _ => { symbolResult := none, nameResult := some "Tether USD",
               decimalsResult := some 6 }

/-- A provider map with no live chain. -/
def providersNone : String → Option Provider := fun _ => none

/-- Witness for C9: with only the symbol fetch failing, symbol degrades to
`"UNK"` while name and decimals keep their fetched values; with no
provider, the lookup errors. -/
theorem claim_C9_witness :
    (cacheGetErc20Meta [] "eth" "0xtok" = none ∧
     providersA (lowerStr "eth") = some provLogA ∧
     providersNone (lowerStr "eth") = none) ∧
    (getErc20Meta providersA fetchMixed [] 0 "eth" "0xtok" =
      .ok ({ symbol := "UNK", name := "Tether USD", decimals := 6 },
           cacheSetErc20Meta [] "eth" "0xtok"
             { symbol := "UNK", name := "Tether USD", decimals := 6 } 0)) ∧
    (getErc20Meta providersNone fetchMixed [] 0 "eth" "0xtok" =
      .error ("Unsupported or unavailable chain " ++ "eth")) :=
  ⟨⟨rfl, rfl, rfl⟩,
   ((claim_C9 providersA fetchMixed [] 0 "eth" "0xtok" rfl).1 provLogA rfl).1,
   (claim_C9 providersNone fetchMixed [] 0 "eth" "0xtok" rfl).2 rfl⟩

/-- **C10.** If the `decimals()` call succeeds and returns 0, the metadata
lookup stores and returns `decimals = 18`: the falsy numeric value 0 is
replaced by the fallback (`Number(decimals) || 18`) even though the fetch
succeeded. -/
theorem claim_C10 (providers : String → Option Provider)
    (fetch : String → String → Erc20Source) (cache : MetaCache) (now : Nat)
    (chain token : String) (p : Provider)
    (hMiss : cacheGetErc20Meta cache chain token = none)
    (hProv : providers (lowerStr chain) = some p)
    (hDec : (fetch chain token).decimalsResult = some 0) :
    ∃ m c2, getErc20Meta providers fetch cache now chain token = .ok (m, c2) ∧
      m.decimals = 18 ∧
      cacheGetErc20Meta c2 chain token = some { meta := m, ts := now } := by
  refine ⟨{ symbol := (fetch chain token).symbolResult.getD "UNK",
            name := (fetch chain token).nameResult.getD "Unknown Token",
            decimals := if (fetch chain token).decimalsResult.getD 18 == 0 then 18
              else (fetch chain token).decimalsResult.getD 18 },
          cacheSetErc20Meta cache chain token
            { symbol := (fetch chain token).symbolResult.getD "UNK",
              name := (fetch chain token).nameResult.getD "Unknown Token",
              decimals := if (fetch chain token).decimalsResult.getD 18 == 0 then 18
                else (fetch chain token).decimalsResult.getD 18 } now,
          ?_, ?_, cacheGetErc20Meta_set cache chain token _ now⟩
  · unfold getErc20Meta
    rw [hMiss]
    unfold getErc20MetaFetch getProvider
    rw [hProv]
  · show (if (fetch chain token).decimalsResult.getD 18 == 0 then 18
      else (fetch chain token).decimalsResult.getD 18) = 18
    rw [hDec]
    rfl

/-- A metadata source whose `decimals()` call succeeds and returns 0. -/
def fetchZeroDec : String → String → Erc20Source :=
  fun _ _ => { symbolResult := some "ZRO", nameResult := some "Zero Token",
               decimalsResult := some 0 }

/-- Witness for C10 on the zero-decimals metadata source. -/
theorem claim_C10_witness :
    (cacheGetErc20Meta [] "eth" "0xtok" = none ∧
     providersA (lowerStr "eth") = some provLogA ∧
     (fetchZeroDec "eth" "0xtok").decimalsResult = some 0) ∧
    (∃ m c2, getErc20Meta providersA fetchZeroDec [] 0 "eth" "0xtok" = .ok (m, c2) ∧
      m.decimals = 18 ∧
      cacheGetErc20Meta c2 "eth" "0xtok" = some { meta := m, ts := 0 }) :=
  ⟨⟨rfl, rfl, rfl⟩,
   claim_C10 providersA fetchZeroDec [] 0 "eth" "0xtok" provLogA rfl rfl rfl⟩

end WalletTracker
